import Mathlib

/-!
Verification of the wallet-exposure ledger and multi-market settlement engine
of the khelodost betting backend (`src/modules/bet/bet.service.js` together
with the wallet model).

Shallow embedding conventions:
* Monetary amounts are rationals (`ℚ`); JavaScript numbers are treated as
  exact rationals.  `Math.round` is embedded as `⌊x + 1/2⌋` (JS rounds
  half-up), so `toInt`/`fromInt` mirror the paise helpers of the source.
* Nullable numeric fields are `Option ℚ`.  Where JavaScript arithmetic or
  comparison coerces `null` to `0` (e.g. `bet.odds - 1`,
  `finalValue > bet.lineValue`), the embedding uses `Option.getD 0`,
  which is the same coercion.  JavaScript truthiness of a number is
  "present and nonzero".
* Mongo documents become lists: the bet collection is a `List BetR` and the
  wallet collection an association list keyed by user id.  `save` by `_id`
  is embedded as an id-keyed replacement.
* `withTransaction` commits the new state on success and aborts (leaving
  the old state) when the wrapped body throws; the `...Tx` wrappers embed
  exactly that transactional semantics.
* `toUpperCase` is embedded by `upperStr`, an executable ASCII uppercase.
-/

/-- Market types, from `Bet.MARKET_TYPES` in `models/Bet.js`. -/
inductive MarketType
  | match_odds
  | bookmakers_fancy
  | line_market
  | meter_market
  | kado_market
deriving DecidableEq, Repr

/-- Bet lifecycle status, from `Bet.BET_STATUS` in `models/Bet.js`.
The schema also lists a middle "partly matched" status used only by the
order-matching variant of the system; the settlement module under
verification never creates or queries it, so it is represented here by
`matched` alongside the states the module does use.  `open` is a Lean
keyword, hence `open_`. -/
inductive BetStatus
  | open_
  | matched
  | cancelled
  | settled
deriving DecidableEq, Repr

/-- Settlement result, from `Bet.BET_RESULT` in `models/Bet.js`. -/
inductive BetResult
  | won
  | lost
  | void
deriving DecidableEq, Repr

/-- Wallet document (`models/Wallet.js`, service variant): `balance` is the
spendable (available) pool and `lockedBalance` the exposure pool.
`lastTransactionAt` is a timestamp with no ledger content and is omitted. -/
structure Wallet where
  balance : ℚ
  lockedBalance : ℚ
  currency : String
  isActive : Bool
  isLocked : Bool
deriving DecidableEq, Repr

/-- Method `walletSchema.methods.isAvailable`: active and not administratively locked. -/
def Wallet.isAvailable (w : Wallet) : Bool := w.isActive && !w.isLocked

/-- Helper `toInt` of `bet.service.js`: `Math.round(amount * 100)` (paise). -/
def toInt (amount : ℚ) : ℤ := ⌊amount * 100 + 1 / 2⌋

/-- Helper `fromInt` of `bet.service.js`: `Math.round(val) / 100`; every call
site passes an integer, on which `Math.round` is the identity. -/
def fromInt (val : ℤ) : ℚ := (val : ℚ) / 100

/-- JavaScript truthiness of a nullable number: present and nonzero. -/
def numTruthy (o : Option ℚ) : Bool :=
  match o with
  | none => false
  | some x => decide ¬(x = 0)

/-- Embedding of `calculateExposure` (lines 46-77 of `bet.service.js`): pure map from
market type, side, stake and price fields to the amount to reserve. -/
def calculateExposure (marketType : MarketType) (betType : String) (stake : ℚ)
    (odds rate : Option ℚ) : Except String ℚ :=
  match marketType with
  | .match_odds =>
    if numTruthy odds = false then .error "Odds required for MATCH_ODDS"
    else if betType = "back" then .ok stake
    else if betType = "lay" then .ok ((odds.getD 0 - 1) * stake)
    else .error "Invalid betType for MATCH_ODDS"
  | .bookmakers_fancy =>
    if numTruthy rate = false then .error "Rate required for BOOKMAKERS_FANCY"
    else .ok stake
  | .line_market => .ok stake
  | .meter_market => .ok stake
  | .kado_market => .ok stake

/-- Embedding of `lockExposure` (lines 82-137 of `bet.service.js`), restricted to its
ledger effect on the wallet of the caller.  The immutable transaction record and
the timestamp update carry no balance information and are not modeled. -/
def lockExposureW (w : Wallet) (exposure : ℚ) : Except String Wallet :=
  if exposure ≤ 0 then .error "Exposure must be positive"
  else if !w.isAvailable then .error "Wallet is locked or inactive"
  else
    let availableInt := toInt w.balance
    let lockedInt := toInt w.lockedBalance
    let exposureInt := toInt exposure
    if availableInt < exposureInt then
      .error "Insufficient wallet balance to lock exposure"
    else
      .ok { w with balance := fromInt (availableInt - exposureInt),
                   lockedBalance := fromInt (lockedInt + exposureInt) }

/-- Embedding of `settleExposure` (lines 142-233 of `bet.service.js`), ledger effect on
the wallet.  Mirrors the source statement for statement: the first save
writes `fromInt (available + exposure + netWin)` into the balance, and when
`netWinInt ≠ 0` a second save writes `fromInt (toInt balanceAfter + netWin)`
on top of it. -/
def settleExposureW (w : Wallet) (exposure netWinAmount : ℚ) : Except String Wallet :=
  let availableInt := toInt w.balance
  let lockedInt := toInt w.lockedBalance
  let exposureInt := toInt exposure
  let netWinInt := toInt netWinAmount
  if lockedInt < exposureInt then
    .error "Locked exposure inconsistent for settlement"
  else
    let balanceAfter := fromInt (availableInt + exposureInt + netWinInt)
    let lockedAfter := fromInt (lockedInt - exposureInt)
    if netWinInt = 0 then
      .ok { w with balance := balanceAfter, lockedBalance := lockedAfter }
    else
      .ok { w with balance := fromInt (toInt balanceAfter + netWinInt),
                   lockedBalance := lockedAfter }

/-- One lock/release cycle: `lockExposure` followed by `settleExposure` of
the same exposure with a zero net result. -/
def roundTripOnce (w : Wallet) (e : ℚ) : Except String Wallet :=
  match lockExposureW w e with
  | .error err => .error err
  | .ok w1 => settleExposureW w1 e 0

/-- Iterated (`n` consecutive) lock/release cycles. -/
def roundTripN : Nat → Wallet → ℚ → Except String Wallet
  | 0, w, _ => .ok w
  | n + 1, w, e =>
    match roundTripOnce w e with
    | .error err => .error err
    | .ok w1 => roundTripN n w1 e

/-- Funds fragment of `placeBet`: lock the computed exposure, then persist
the bet.  `placeBet` runs inside `withTransaction`, so a throw from
`lockExposure` aborts the transaction: the wallet keeps its pre-call state
and no bet document is persisted.  The returned `Bool` records whether a
bet was persisted. -/
def placeBetFunds (w : Wallet) (exposure : ℚ) : Wallet × Bool :=
  match lockExposureW w exposure with
  | .ok w' => (w', true)
  | .error _ => (w, false)

/-- Bet document (`models/Bet.js`) with the fields the settlement engine
reads or writes.  `id` stands for the Mongo `_id`. -/
structure BetR where
  id : Nat
  userId : Nat
  eventId : String
  marketId : String
  marketType : MarketType
  selectionId : String
  selectionName : String
  betType : String
  odds : Option ℚ
  rate : Option ℚ
  lineValue : Option ℚ
  stake : ℚ
  exposure : ℚ
  status : BetStatus
  settlementResult : Option BetResult
deriving DecidableEq, Repr

/-- Persistent state touched by settlement: the bet collection and the
wallet collection (keyed by user id, unique per user). -/
structure DB where
  bets : List BetR
  wallets : List (Nat × Wallet)
deriving DecidableEq, Repr

/-- Lookup `Wallet.findOne` by user id. -/
def walletFind : List (Nat × Wallet) → Nat → Option Wallet
  | [], _ => none
  | e :: rest, u => if e.1 = u then some e.2 else walletFind rest u

/-- Save `wallet.save()`: replace the stored wallet of that user. -/
def walletUpdate : List (Nat × Wallet) → Nat → Wallet → List (Nat × Wallet)
  | [], _, _ => []
  | e :: rest, u, w => (if e.1 = u then (e.1, w) else e) :: walletUpdate rest u w

/-- Save `bet.save()`: replace the stored bet with the same `_id`. -/
def saveBet (bets : List BetR) (b : BetR) : List BetR :=
  bets.map fun x => if x.id = b.id then b else x

/-- Embedding of `settleExposure` at the database level: look the wallet up, apply the
ledger effect, store the result.  A missing wallet throws. -/
def settleExposureDB (db : DB) (userId : Nat) (exposure netWin : ℚ) : Except String DB :=
  match walletFind db.wallets userId with
  | none => .error "Wallet not found"
  | some w =>
    match settleExposureW w exposure netWin with
    | .error e => .error e
    | .ok w' => .ok { db with wallets := walletUpdate db.wallets userId w' }

/-- Mongo query filter shared by every `settle*` helper:
same market, same event, same market type, status still `open`. -/
def betMatches (b : BetR) (marketId eventId : String) (mt : MarketType) : Bool :=
  decide (b.marketId = marketId ∧ b.eventId = eventId ∧
          b.marketType = mt ∧ b.status = BetStatus.open_)

/-- The list of bets a `settle*` helper loads. -/
def openBetsFor (db : DB) (marketId eventId : String) (mt : MarketType) : List BetR :=
  db.bets.filter fun b => betMatches b marketId eventId mt

/-- Write-back applied to each processed bet: status becomes `settled`;
`settlementResult` is assigned when the per-type logic chose one and is
left untouched otherwise (the source only assigns it inside the
`back`/`lay` (etc.) branches). -/
def applyOutcome (b : BetR) (o : ℚ × Option BetResult) : BetR :=
  { b with status := .settled,
           settlementResult := match o.2 with
             | some r => some r
             | none => b.settlementResult }

/-- Shared loop shape of the five `settle*` helpers: for each fetched bet,
compute its net win/loss and settlement result, run `settleExposure`
(a throw aborts the whole market settlement), then save the bet as
settled. -/
def settleLoop (db : DB) (bets : List BetR) (f : BetR → ℚ × Option BetResult) :
    Except String DB :=
  match bets with
  | [] => .ok db
  | b :: rest =>
    match settleExposureDB db b.userId b.exposure (f b).1 with
    | .error e => .error e
    | .ok db1 => settleLoop { db1 with bets := saveBet db1.bets (applyOutcome b (f b)) } rest f

/-- Per-bet outcome of `settleMatchOdds` (lines 539-563): back wins
`(odds - 1) * stake`, lay wins `stake`, losers lose their exposure. -/
def matchOddsOutcome (winnerSelectionId : String) (b : BetR) : ℚ × Option BetResult :=
  let isWinner := decide (b.selectionId = winnerSelectionId)
  if b.betType = "back" then
    if isWinner then ((b.odds.getD 0 - 1) * b.stake, some .won)
    else (-b.exposure, some .lost)
  else if b.betType = "lay" then
    if isWinner then (-b.exposure, some .lost)
    else (b.stake, some .won)
  else (0, none)

/-- JS object lookup `resultMap[selectionId]`. -/
def lookupStr : List (String × String) → String → Option String
  | [], _ => none
  | e :: rest, k => if e.1 = k then some e.2 else lookupStr rest k

/-- JavaScript truthiness of a nullable string: present and non-empty. -/
def strTruthy (o : Option String) : Bool :=
  match o with
  | none => false
  | some s => decide ¬(s = "")

/-- Per-bet outcome of `settleBookmakersFancy` (lines 591-632): a falsy
outcome voids the bet with a zero net result; a winning yes pays
`stake * rate / 100`; a winning no returns the stake as net `0`; losers
lose their exposure. -/
def fancyOutcome (resultMap : List (String × String)) (b : BetR) : ℚ × Option BetResult :=
  let outcome := lookupStr resultMap b.selectionId
  if strTruthy outcome = false then (0, some .void)
  else
    let o := outcome.getD ""
    if b.betType = "yes" then
      if o = "yes" then (b.stake * b.rate.getD 0 / 100, some .won)
      else (-b.exposure, some .lost)
    else if b.betType = "no" then
      if o = "no" then (0, some .won)
      else (-b.exposure, some .lost)
    else (0, none)

/-- Per-bet outcome of `settleLineMarket` (lines 659-667): over wins on a
strict `finalValue > lineValue`, under on a strict `finalValue < lineValue`;
the boundary loses for both, and the result is always assigned. -/
def lineOutcome (finalValue : ℚ) (b : BetR) : ℚ × Option BetResult :=
  let isWinner :=
    if b.betType = "over" then decide (b.lineValue.getD 0 < finalValue)
    else if b.betType = "under" then decide (finalValue < b.lineValue.getD 0)
    else false
  (if isWinner then b.stake else -b.exposure,
   some (if isWinner then BetResult.won else BetResult.lost))

/-- Per-bet outcome of `settleMeterMarket` (lines 697-700): the bet wins
if and only if `finalValue ≥ lineValue`, whatever the side. -/
def meterOutcome (finalValue : ℚ) (b : BetR) : ℚ × Option BetResult :=
  let isWinner := decide (b.lineValue.getD 0 ≤ finalValue)
  (if isWinner then b.stake else -b.exposure,
   some (if isWinner then BetResult.won else BetResult.lost))

/-- Per-bet outcome of `settleKadoMarket` (lines 730-735): the side matching
the resolved outcome wins `stake * (multiplier - 1)` with `bet.rate || 2`
as multiplier. -/
def kadoOutcome (isWinForYes : Bool) (b : BetR) : ℚ × Option BetResult :=
  let isWinner := if isWinForYes then decide (b.betType = "yes")
                  else decide (b.betType = "no")
  let multiplier := if numTruthy b.rate then b.rate.getD 0 else 2
  (if isWinner then b.stake * (multiplier - 1) else -b.exposure,
   some (if isWinner then BetResult.won else BetResult.lost))

/-- Embedding of `settleMatchOdds` (lines 529-578). -/
def settleMatchOddsDB (db : DB) (marketId eventId winnerSelectionId : String) :
    Except String DB :=
  settleLoop db (openBetsFor db marketId eventId .match_odds)
    (matchOddsOutcome winnerSelectionId)

/-- Embedding of `settleBookmakersFancy` (lines 580-647). -/
def settleBookmakersFancyDB (db : DB) (marketId eventId : String)
    (resultMap : List (String × String)) : Except String DB :=
  settleLoop db (openBetsFor db marketId eventId .bookmakers_fancy)
    (fancyOutcome resultMap)

/-- Embedding of `settleLineMarket` (lines 649-685). -/
def settleLineMarketDB (db : DB) (marketId eventId : String) (finalValue : ℚ) :
    Except String DB :=
  settleLoop db (openBetsFor db marketId eventId .line_market) (lineOutcome finalValue)

/-- Embedding of `settleMeterMarket` (lines 687-718). -/
def settleMeterMarketDB (db : DB) (marketId eventId : String) (finalValue : ℚ) :
    Except String DB :=
  settleLoop db (openBetsFor db marketId eventId .meter_market) (meterOutcome finalValue)

/-- Embedding of `settleKadoMarket` (lines 720-753). -/
def settleKadoMarketDB (db : DB) (marketId eventId : String) (isWinForYes : Bool) :
    Except String DB :=
  settleLoop db (openBetsFor db marketId eventId .kado_market) (kadoOutcome isWinForYes)

/-- Admin settlement request payload (`settleMarket`), with every
type-specific outcome field present. -/
structure SettlePayload where
  marketType : MarketType
  marketId : String
  eventId : String
  winnerSelectionId : String
  resultMap : List (String × String)
  isWinForYes : Bool
  finalValue : ℚ
deriving DecidableEq, Repr

/-- Embedding of `settleMarket` (lines 758-812): dispatch on market type. -/
def settleMarketDB (db : DB) (p : SettlePayload) : Except String DB :=
  match p.marketType with
  | .match_odds => settleMatchOddsDB db p.marketId p.eventId p.winnerSelectionId
  | .bookmakers_fancy => settleBookmakersFancyDB db p.marketId p.eventId p.resultMap
  | .line_market => settleLineMarketDB db p.marketId p.eventId p.finalValue
  | .meter_market => settleMeterMarketDB db p.marketId p.eventId p.finalValue
  | .kado_market => settleKadoMarketDB db p.marketId p.eventId p.isWinForYes

/-- Embedding of `settleMarket` wrapped in `withTransaction`: on success the produced
state commits, on a throw the transaction aborts and the previous state is
kept. -/
def settleMarketTx (db : DB) (p : SettlePayload) : DB :=
  match settleMarketDB db p with
  | .ok db' => db'
  | .error _ => db

/-- ASCII uppercase of one character (`toUpperCase` on the ASCII status strings of the provider). -/
def upperChar (c : Char) : Char :=
  if 97 ≤ c.toNat ∧ c.toNat ≤ 122 then Char.ofNat (c.toNat - 32) else c

/-- ASCII uppercase of a string, executable embedding of `toUpperCase`. -/
def upperStr (s : String) : String := String.mk (s.data.map upperChar)

/-- One quoted price row of a market section (`section[i].odds[j]`):
`otype` is `"back"` or `"lay"`, `odds` the quoted price.  `none` stands
for a non-numeric quote, which `Number(...)` turns into `NaN` and the
source filters out. -/
structure PriceRow where
  otype : String
  odds : Option ℚ
deriving DecidableEq, Repr

/-- One selection/section of a market snapshot.  The source field `nat`
(selection name) keeps its name. -/
structure MSection where
  sid : String
  nat : String
  gstatus : String
  odds : List PriceRow
deriving DecidableEq, Repr

/-- One market of the cached provider snapshot.  The source field is
called `section`, a Lean keyword, hence `sections`. -/
structure MarketSnap where
  mid : String
  status : String
  mname : String
  sections : List MSection
deriving DecidableEq, Repr

/-- Placement request payload (`placeBet`). -/
structure PlacePayload where
  sport : String
  eventId : String
  eventName : String
  marketId : String
  marketType : MarketType
  selectionId : String
  selectionName : String
  betType : String
  odds : Option ℚ
  rate : Option ℚ
  lineValue : Option ℚ
  stake : ℚ
deriving DecidableEq, Repr

/-- Coercion `odds || null` (and `rate || null`, `lineValue || null`) when the bet
document is created: a falsy number is stored as null. -/
def jsOrNull (o : Option ℚ) : Option ℚ :=
  match o with
  | some x => if x = 0 then none else some x
  | none => none

/-- Section lookup of `placeBet`: match by `sid` first, fall back to the
selection name `nat`. -/
def findSection (sections : List MSection) (selectionId selectionName : String) :
    Option MSection :=
  match sections.find? (fun s => s.sid = selectionId) with
  | some s => some s
  | none => sections.find? (fun s => s.nat = selectionName)

/-- The numeric quotes of one side of the ladder of a section:
`ladder.filter(p => p.otype === t).map(p => Number(p.odds)).filter(v => !isNaN(v))`. -/
def sectionPrices (sec : MSection) (t : String) : List ℚ :=
  sec.odds.filterMap fun r => if r.otype = t then r.odds else none

/-- Maximum `Math.max(...prices)` over a non-empty list (the empty case is guarded
by the caller). -/
def listMaxD : List ℚ → ℚ
  | [] => 0
  | p :: rest => rest.foldl max p

/-- Minimum `Math.min(...prices)` over a non-empty list. -/
def listMinD : List ℚ → ℚ
  | [] => 0
  | p :: rest => rest.foldl min p

/-- Price-integrity validation of `placeBet` for `MATCH_ODDS`
(lines 300-346): section present and active, ladder side non-empty, and
the submitted odds must equal the current best back (highest) or best lay
(lowest) quote.  A missing submitted price is `NaN` and never equal. -/
def validateMatchOdds (mm : MarketSnap) (p : PlacePayload) : Except String Unit :=
  match findSection mm.sections p.selectionId p.selectionName with
  | none => .error "value change try again"
  | some sec =>
    if upperStr sec.gstatus ≠ "ACTIVE" then .error "value change try again"
    else
      match (if p.betType = "back" then some "back"
             else if p.betType = "lay" then some "lay" else none) with
      | none => .error "Invalid betType for MATCH_ODDS"
      | some t =>
        let prices := sectionPrices sec t
        if prices.isEmpty then .error "value change try again"
        else
          let currentPrice := if t = "back" then listMaxD prices else listMinD prices
          match p.odds with
          | none => .error "value change try again"
          | some o =>
            if o ≠ currentPrice then .error "value change try again" else .ok ()

/-- Price-integrity validation of `placeBet` for `BOOKMAKERS_FANCY`
(lines 347-394): section present and not explicitly suspended, yes maps to
the back ladder and no to the lay ladder, and the submitted rate must
equal the current best quote. -/
def validateFancy (mm : MarketSnap) (p : PlacePayload) : Except String Unit :=
  match findSection mm.sections p.selectionId p.selectionName with
  | none => .error "value change try again"
  | some sec =>
    if upperStr sec.gstatus = "SUSPENDED" then .error "value change try again"
    else
      match (if p.betType = "yes" then some "back"
             else if p.betType = "no" then some "lay" else none) with
      | none => .error "Invalid betType for BOOKMAKERS_FANCY"
      | some t =>
        let prices := sectionPrices sec t
        if prices.isEmpty then .error "value change try again"
        else
          let currentRate := if t = "back" then listMaxD prices else listMinD prices
          match p.rate with
          | none => .error "value change try again"
          | some r =>
            if r ≠ currentRate then .error "value change try again" else .ok ()

/-- Embedding of `placeBet` (lines 238-439) against a given snapshot and the wallet of the caller: sport check, snapshot lookup, market/status/name checks, per-type
price-integrity validation, exposure computation, exposure lock, bet
creation.  The snapshot parameter is the result of `getEventDataFromCache` (`none` when no cached data exists). -/
def placeBetV (snapshot : Option (List MarketSnap)) (userId : Nat) (w : Wallet)
    (p : PlacePayload) : Except String (Wallet × BetR) :=
  if ¬(p.sport = "cricket" ∨ p.sport = "soccer" ∨ p.sport = "tennis") then
    .error "Invalid or missing sport"
  else
    match snapshot with
    | none => .error "Event data not available"
    | some marketsArray =>
      match marketsArray.find? (fun m => m.mid = p.marketId) with
      | none => .error "value change try again"
      | some mm =>
        if mm.mid ≠ p.marketId then .error "value change try again"
        else if upperStr mm.status ≠ "OPEN" then .error "Market is not open"
        else if mm.mname = "" then .error "value change try again"
        else
          let validation :=
            if p.marketType = MarketType.match_odds then validateMatchOdds mm p
            else if p.marketType = MarketType.bookmakers_fancy then validateFancy mm p
            else Except.ok ()
          match validation with
          | .error e => .error e
          | .ok _ =>
            match calculateExposure p.marketType p.betType p.stake p.odds p.rate with
            | .error e => .error e
            | .ok exposure =>
              match lockExposureW w exposure with
              | .error e => .error e
              | .ok w' =>
                .ok (w', { id := 0, userId := userId, eventId := p.eventId,
                           marketId := p.marketId, marketType := p.marketType,
                           selectionId := p.selectionId,
                           selectionName := p.selectionName, betType := p.betType,
                           odds := jsOrNull p.odds, rate := jsOrNull p.rate,
                           lineValue := jsOrNull p.lineValue, stake := p.stake,
                           exposure := exposure, status := .open_,
                           settlementResult := none })

/-- Embedding of `placeBet` wrapped in `withTransaction`: a throw aborts the
transaction, so the wallet stays as it was and no bet is persisted. -/
def placeBetTx (snapshot : Option (List MarketSnap)) (userId : Nat) (w : Wallet)
    (p : PlacePayload) : Wallet × Option BetR :=
  match placeBetV snapshot userId w p with
  | .ok (w', b) => (w', some b)
  | .error _ => (w, none)

/-- Fixture: wallet of user 7 with no available balance and exactly the
exposure of the bet locked. -/
def wC2 : Wallet := ⟨0, 100, "INR", true, false⟩

/-- Fixture: open back bet, stake 100 at odds 4.70, exposure 100. -/
def betC2 : BetR :=
  ⟨1, 7, "ev1", "mkt1", .match_odds, "sel1", "Team A", "back",
   some (47 / 10), none, none, 100, 100, .open_, none⟩

/-- Fixture: one-bet database for the fixed-odds settlement evaluation. -/
def dbC2 : DB := ⟨[betC2], [(7, wC2)]⟩

/-- Fixture: settlement request declaring `sel1` the winner. -/
def pC2 : SettlePayload := ⟨.match_odds, "mkt1", "ev1", "sel1", [], false, 0⟩

/-- Fixture: the state the code actually produces for `dbC2`. -/
def dbC2After : DB :=
  ⟨[{ betC2 with status := .settled, settlementResult := some .won }],
   [(7, ⟨840, 0, "INR", true, false⟩)]⟩

/-- Fixture: wallet holding 500 available and 100 locked. -/
def wC10 : Wallet := ⟨500, 100, "INR", true, false⟩

/-- Fixture: open session (fancy) yes bet of user 5, stake 100 at rate 95. -/
def betC7 : BetR :=
  ⟨1, 5, "ev2", "mkt2", .bookmakers_fancy, "sel9", "Over 45", "yes",
   none, some 95, none, 100, 100, .open_, none⟩

/-- Fixture: one-bet fancy database; user 5 has the exposure locked. -/
def dbC7 : DB := ⟨[betC7], [(5, ⟨0, 100, "INR", true, false⟩)]⟩

/-- Fixture: the voided state after settling `dbC7` with an empty result map. -/
def dbC7After : DB :=
  ⟨[{ betC7 with status := .settled, settlementResult := some .void }],
   [(5, ⟨100, 0, "INR", true, false⟩)]⟩

/-- Fixture: wallet of user 12 with plenty locked. -/
def wC8 : Wallet := ⟨50, 200, "INR", true, false⟩

/-- Fixture: open back bet of user 11, who has no wallet document. -/
def betC8a : BetR :=
  ⟨1, 11, "ev3", "mkt3", .match_odds, "sA", "A", "back",
   some 2, none, none, 100, 100, .open_, none⟩

/-- Fixture: open back bet of user 12 on the same market, fully coverable. -/
def betC8b : BetR :=
  ⟨2, 12, "ev3", "mkt3", .match_odds, "sA", "A", "back",
   some 2, none, none, 100, 100, .open_, none⟩

/-- Fixture: two-bet market where only user 12 owns a wallet. -/
def dbC8 : DB := ⟨[betC8a, betC8b], [(12, wC8)]⟩

/-- Fixture: settlement request for the `dbC8` market. -/
def pC8 : SettlePayload := ⟨.match_odds, "mkt3", "ev3", "sA", [], false, 0⟩

/-- Fixture: open over bet on a line market with line value 160.5. -/
def betC6 : BetR :=
  ⟨3, 9, "ev4", "mkt4", .line_market, "runs", "Runs line", "over",
   none, none, some (321 / 2), 100, 100, .open_, none⟩

/-- Fixture: an active match-odds section quoting best back 2 and best lay 2.1. -/
def secC9 : MSection :=
  ⟨"s1", "Team A", "ACTIVE", [⟨"back", some 2⟩, ⟨"lay", some (21 / 10)⟩]⟩

/-- Fixture: an open market snapshot. -/
def mmC9open : MarketSnap := ⟨"m1", "OPEN", "Match Odds", [secC9]⟩

/-- Fixture: a suspended market snapshot. -/
def mmC9susp : MarketSnap := ⟨"m2", "SUSPENDED", "Match Odds", [secC9]⟩

/-- Fixture: cached snapshot holding the open and the suspended market. -/
def snapC9 : List MarketSnap := [mmC9open, mmC9susp]

/-- Fixture: a well-funded, available wallet. -/
def wC9 : Wallet := ⟨1000, 0, "INR", true, false⟩

/-- Fixture: placement on a market id absent from the snapshot. -/
def pC9a : PlacePayload :=
  ⟨"cricket", "ev", "Ev", "mX", .match_odds, "s1", "Team A", "back",
   some 2, none, none, 100⟩

/-- Fixture: placement on the suspended market. -/
def pC9b : PlacePayload :=
  ⟨"cricket", "ev", "Ev", "m2", .match_odds, "s1", "Team A", "back",
   some 2, none, none, 100⟩

/-- Fixture: placement on the open market at a price (3) that no longer
matches the best back quote (2). -/
def pC9c : PlacePayload :=
  ⟨"cricket", "ev", "Ev", "m1", .match_odds, "s1", "Team A", "back",
   some 3, none, none, 100⟩

/-- Fixture: lay placement on the open market at a price (2) that no longer
matches the best lay quote (2.1). -/
def pC9d : PlacePayload :=
  ⟨"cricket", "ev", "Ev", "m1", .match_odds, "s1", "Team A", "lay",
   some 2, none, none, 100⟩

/-- Fixture: session (fancy) no placement on the open market at a rate (2)
that no longer matches the best lay quote (2.1). -/
def pC9e : PlacePayload :=
  ⟨"cricket", "ev", "Ev", "m1", .bookmakers_fancy, "s1", "Team A", "no",
   none, some 2, none, 100⟩

theorem toInt_fromInt (z : ℤ) : toInt (fromInt z) = z := by
  unfold toInt fromInt
  rw [div_mul_cancel₀ _ (by norm_num : (100 : ℚ) ≠ 0), Int.floor_int_add]
  norm_num

theorem toInt_mono {a b : ℚ} (h : a ≤ b) : toInt a ≤ toInt b := by
  unfold toInt
  exact Int.floor_le_floor (by nlinarith)

theorem toInt_zero : toInt 0 = 0 := by
  unfold toInt
  norm_num

theorem toInt_nonneg {a : ℚ} (h : 0 ≤ a) : 0 ≤ toInt a := by
  have := toInt_mono h
  rwa [toInt_zero] at this

theorem settleExposureDB_ok_bets {db db' : DB} {u : Nat} {e n : ℚ}
    (h : settleExposureDB db u e n = .ok db') : db'.bets = db.bets := by
  unfold settleExposureDB at h
  split at h
  · cases h
  · split at h
    · cases h
    · cases h
      rfl

theorem walletFind_update_none {ws : List (Nat × Wallet)} {v : Nat} (u : Nat) (w : Wallet)
    (h : walletFind ws v = none) : walletFind (walletUpdate ws u w) v = none := by
  induction ws with
  | nil => simp [walletFind, walletUpdate]
  | cons e rest ih =>
    unfold walletFind at h
    by_cases hv : e.1 = v
    · rw [if_pos hv] at h; cases h
    · rw [if_neg hv] at h
      show walletFind ((if e.1 = u then (e.1, w) else e) :: walletUpdate rest u w) v = none
      have hfst : (if e.1 = u then (e.1, w) else e).1 = e.1 := by
        by_cases hu : e.1 = u <;> simp [hu]
      unfold walletFind
      rw [hfst, if_neg hv]
      exact ih h

theorem settleExposureDB_ok_missing {db db' : DB} {u v : Nat} {e n : ℚ}
    (h : settleExposureDB db u e n = .ok db') (hv : walletFind db.wallets v = none) :
    walletFind db'.wallets v = none := by
  unfold settleExposureDB at h
  split at h
  · cases h
  · split at h
    · cases h
    · cases h
      exact walletFind_update_none _ _ hv

theorem settleLoop_mem_cases (f : BetR → ℚ × Option BetResult) :
    ∀ (bets : List BetR) (db db' : DB), settleLoop db bets f = .ok db' →
      ∀ x ∈ db'.bets, (x ∈ db.bets ∧ ∀ b ∈ bets, x.id ≠ b.id) ∨ x.status = .settled := by
  intro bets
  induction bets with
  | nil =>
    intro db db' h x hx
    simp only [settleLoop] at h
    cases h
    exact Or.inl ⟨hx, fun b hb => absurd hb (List.not_mem_nil b)⟩
  | cons b rest ih =>
    intro db db' h x hx
    simp only [settleLoop] at h
    cases hse : settleExposureDB db b.userId b.exposure (f b).1 with
    | error e => rw [hse] at h; cases h
    | ok db1 =>
      rw [hse] at h
      have hb1 : db1.bets = db.bets := settleExposureDB_ok_bets hse
      rcases ih _ _ h x hx with ⟨hx2, hids⟩ | hs
      · have hx3 : x ∈ saveBet db.bets (applyOutcome b (f b)) := by
          rw [← hb1]; exact hx2
        rw [saveBet, List.mem_map] at hx3
        obtain ⟨y, hy, hxy⟩ := hx3
        by_cases hid : y.id = (applyOutcome b (f b)).id
        · right
          have hx_eq : x = applyOutcome b (f b) := by rw [← hxy, if_pos hid]
          rw [hx_eq]; rfl
        · left
          have hx_eq : x = y := by rw [← hxy, if_neg hid]
          subst hx_eq
          refine ⟨hy, fun c hc => ?_⟩
          rcases List.mem_cons.mp hc with rfl | hc'
          · simpa [applyOutcome] using hid
          · exact hids c hc'
      · exact Or.inr hs

theorem settleLoop_clears {db db' : DB} {mid eid : String} {mt : MarketType}
    (f : BetR → ℚ × Option BetResult)
    (h : settleLoop db (openBetsFor db mid eid mt) f = .ok db') :
    openBetsFor db' mid eid mt = [] := by
  unfold openBetsFor
  rw [List.filter_eq_nil_iff]
  intro x hx hq
  rcases settleLoop_mem_cases f _ db db' h x hx with ⟨hxdb, hids⟩ | hs
  · exact hids x (List.mem_filter.mpr ⟨hxdb, hq⟩) rfl
  · unfold betMatches at hq
    rw [decide_eq_true_eq] at hq
    obtain ⟨-, -, -, hst⟩ := hq
    rw [hs] at hst
    cases hst

theorem settleMarketDB_fixpoint {p : SettlePayload} :
    ∀ s s' : DB, settleMarketDB s p = .ok s' → settleMarketDB s' p = .ok s' := by
  intro s s' hs
  obtain ⟨mt, mid, eid, wsel, rm, iwy, fv⟩ := p
  cases mt <;>
    simp only [settleMarketDB, settleMatchOddsDB, settleBookmakersFancyDB,
      settleLineMarketDB, settleMeterMarketDB, settleKadoMarketDB] at hs ⊢ <;>
    rw [settleLoop_clears _ hs] <;> rfl

theorem settleLoop_preserves (f : BetR → ℚ × Option BetResult) :
    ∀ (bets : List BetR) (db db' : DB), settleLoop db bets f = .ok db' →
      ∀ x ∈ db.bets, (∀ b ∈ bets, x.id ≠ b.id) → x ∈ db'.bets := by
  intro bets
  induction bets with
  | nil =>
    intro db db' h x hx _
    simp only [settleLoop] at h
    cases h
    exact hx
  | cons b rest ih =>
    intro db db' h x hx hids
    simp only [settleLoop] at h
    cases hse : settleExposureDB db b.userId b.exposure (f b).1 with
    | error e => rw [hse] at h; cases h
    | ok db1 =>
      rw [hse] at h
      have hb1 : db1.bets = db.bets := settleExposureDB_ok_bets hse
      refine ih _ _ h x ?_ fun c hc => hids c (List.mem_cons_of_mem b hc)
      show x ∈ saveBet db1.bets (applyOutcome b (f b))
      rw [hb1, saveBet, List.mem_map]
      refine ⟨x, hx, ?_⟩
      rw [if_neg ?_]
      show ¬x.id = (applyOutcome b (f b)).id
      simpa [applyOutcome] using hids b (List.mem_cons_self b rest)

theorem settleLoop_processes (f : BetR → ℚ × Option BetResult) :
    ∀ (bets : List BetR) (db db' : DB), settleLoop db bets f = .ok db' →
      (bets.map BetR.id).Nodup →
      ∀ b ∈ bets, b ∈ db.bets → applyOutcome b (f b) ∈ db'.bets := by
  intro bets
  induction bets with
  | nil =>
    intro db db' _ _ b hb
    exact absurd hb (List.not_mem_nil b)
  | cons hd rest ih =>
    intro db db' h hnd b hb hbdb
    simp only [settleLoop] at h
    cases hse : settleExposureDB db hd.userId hd.exposure (f hd).1 with
    | error e => rw [hse] at h; cases h
    | ok db1 =>
      rw [hse] at h
      have hb1 : db1.bets = db.bets := settleExposureDB_ok_bets hse
      rw [List.map_cons, List.nodup_cons] at hnd
      obtain ⟨hhd, hndr⟩ := hnd
      rcases List.mem_cons.mp hb with rfl | hbr
      · refine settleLoop_preserves f rest _ db' h (applyOutcome b (f b)) ?_ ?_
        · show applyOutcome b (f b) ∈ saveBet db1.bets (applyOutcome b (f b))
          rw [hb1, saveBet, List.mem_map]
          exact ⟨b, hbdb, by simp [applyOutcome]⟩
        · intro c hc
          have : (applyOutcome b (f b)).id = b.id := rfl
          rw [this]
          intro hcontra
          exact hhd (hcontra ▸ List.mem_map_of_mem BetR.id hc)
      · refine ih _ _ h hndr b hbr ?_
        show b ∈ saveBet db1.bets (applyOutcome hd (f hd))
        rw [hb1, saveBet, List.mem_map]
        refine ⟨b, hbdb, ?_⟩
        rw [if_neg ?_]
        show ¬b.id = (applyOutcome hd (f hd)).id
        have : (applyOutcome hd (f hd)).id = hd.id := rfl
        rw [this]
        intro hcontra
        exact hhd (hcontra ▸ List.mem_map_of_mem BetR.id hbr)

theorem settleLoop_error_of_missing (f : BetR → ℚ × Option BetResult) :
    ∀ (bets : List BetR) (db : DB),
      (∃ b ∈ bets, walletFind db.wallets b.userId = none) →
      ∃ e, settleLoop db bets f = .error e := by
  intro bets
  induction bets with
  | nil =>
    intro db ⟨b, hb, _⟩
    exact absurd hb (List.not_mem_nil b)
  | cons hd rest ih =>
    intro db ⟨b, hb, hmiss⟩
    simp only [settleLoop]
    cases hse : settleExposureDB db hd.userId hd.exposure (f hd).1 with
    | error e => exact ⟨e, rfl⟩
    | ok db1 =>
      rcases List.mem_cons.mp hb with rfl | hbr
      · exfalso
        unfold settleExposureDB at hse
        rw [hmiss] at hse
        cases hse
      · have hmiss1 : walletFind db1.wallets b.userId = none :=
          settleExposureDB_ok_missing hse hmiss
        exact ih _ ⟨b, hbr, hmiss1⟩

theorem fancyOutcome_void {rm : List (String × String)} {b : BetR}
    (h : strTruthy (lookupStr rm b.selectionId) = false) :
    fancyOutcome rm b = (0, some .void) := by
  unfold fancyOutcome
  rw [if_pos h]

/-- C1: for every accepted placement, the computed exposure equals: stake
for a fixed-odds back bet; stake × (odds − 1) for a fixed-odds lay bet with
odds > 1; and exactly the stake for every session (yes/no), line, meter,
and fixed-multiplier (kado) bet regardless of side. -/
theorem calculateExposure_spec (mt : MarketType) (bt : String) (stake : ℚ)
    (odds rate : Option ℚ) (e : ℚ)
    (h : calculateExposure mt bt stake odds rate = .ok e) :
    (mt = .match_odds → bt = "back" → e = stake) ∧
    (mt = .match_odds → bt = "lay" → ∀ o, odds = some o → 1 < o → e = stake * (o - 1)) ∧
    (mt = .bookmakers_fancy → e = stake) ∧
    ((mt = .line_market ∨ mt = .meter_market ∨ mt = .kado_market) → e = stake) := by
  refine ⟨fun hmt hbt => ?_, fun hmt hbt o ho _ => ?_, fun hmt => ?_, fun hmt => ?_⟩
  · subst hmt; subst hbt
    simp only [calculateExposure, if_true] at h
    split at h
    · cases h
    · cases h; rfl
  · subst hmt; subst hbt; subst ho
    simp only [calculateExposure, if_true] at h
    split at h
    · cases h
    · cases h
      simp only [Option.getD_some]
      ring
  · subst hmt
    simp only [calculateExposure] at h
    split at h
    · cases h
    · cases h; rfl
  · rcases hmt with rfl | rfl | rfl <;>
      (simp only [calculateExposure] at h; cases h; rfl)

theorem calculateExposure_spec_w :
    calculateExposure .match_odds "lay" 100 (some 3) none = .ok 200 ∧
      (200 : ℚ) = 100 * (3 - 1) := by
  have h : calculateExposure .match_odds "lay" 100 (some 3) none = .ok 200 := by
    norm_num [calculateExposure, numTruthy]
    decide
  exact ⟨h, (calculateExposure_spec _ _ _ _ _ _ h).2.1 rfl rfl 3 rfl (by norm_num)⟩

/-- C3: market settlement is idempotent: running `settleMarket` twice in
sequence produces the same final state (wallet balances and settled bets)
as running it once, because settlement only loads bets still in `open`
status and a successful run leaves no open bet of that market behind. -/
theorem settleMarket_idempotent (db : DB) (p : SettlePayload) :
    settleMarketTx (settleMarketTx db p) p = settleMarketTx db p := by
  cases h : settleMarketDB db p with
  | error e => simp [settleMarketTx, h]
  | ok db' => simp [settleMarketTx, h, settleMarketDB_fixpoint db db' h]

/-- C6: on a line market, side over wins iff `finalValue > lineValue` and
side under wins iff `finalValue < lineValue`; at `finalValue = lineValue`
the bet is settled as lost (no void/push).  On a meter market an over bet
wins iff `finalValue ≥ lineValue`. -/
theorem line_meter_boundary_semantics (b : BetR) (V L : ℚ) (hL : b.lineValue = some L) :
    (b.betType = "over" → ((lineOutcome V b).2 = some .won ↔ L < V)) ∧
    (b.betType = "under" → ((lineOutcome V b).2 = some .won ↔ V < L)) ∧
    (V = L → (lineOutcome V b).2 = some .lost) ∧
    (b.betType = "over" → ((meterOutcome V b).2 = some .won ↔ L ≤ V)) := by
  refine ⟨fun hbt => ?_, fun hbt => ?_, fun hVL => ?_, fun hbt => ?_⟩
  · by_cases h : L < V <;> simp [lineOutcome, hL, hbt, h]
  · by_cases h : V < L <;> simp [lineOutcome, hL, hbt, h]
  · subst hVL
    by_cases h1 : b.betType = "over" <;> by_cases h2 : b.betType = "under" <;>
      simp [lineOutcome, hL, h1, h2, lt_irrefl]
  · by_cases h : L ≤ V <;> simp [meterOutcome, hL, h]

theorem line_meter_boundary_semantics_w :
    (lineOutcome (321 / 2) betC6).2 = some .lost ∧
      ((meterOutcome (321 / 2) betC6).2 = some .won ↔ (321 / 2 : ℚ) ≤ 321 / 2) := by
  refine ⟨?_, ?_⟩
  · exact (line_meter_boundary_semantics betC6 (321 / 2) (321 / 2) rfl).2.2.1 rfl
  · exact (line_meter_boundary_semantics betC6 (321 / 2) (321 / 2) rfl).2.2.2 rfl

/-- C4: for a wallet whose balances are whole paise, locking a positive
exposure not exceeding the available balance and then releasing the same
exposure with a zero net result restores the exact pre-lock
available/locked split, and repeating the cycle any number of times
produces no drift. -/
theorem lock_release_round_trip (w : Wallet) (e : ℚ)
    (hav : w.isAvailable = true) (hpos : 0 < e) (hle : e ≤ w.balance)
    (hlk : 0 ≤ w.lockedBalance)
    (hb : fromInt (toInt w.balance) = w.balance)
    (hl : fromInt (toInt w.lockedBalance) = w.lockedBalance) :
    roundTripOnce w e = .ok w ∧ ∀ n, roundTripN n w e = .ok w := by
  have hEA : toInt e ≤ toInt w.balance := toInt_mono hle
  have hL0 : 0 ≤ toInt w.lockedBalance := toInt_nonneg hlk
  have hlock : lockExposureW w e =
      .ok { w with balance := fromInt (toInt w.balance - toInt e),
                   lockedBalance := fromInt (toInt w.lockedBalance + toInt e) } := by
    unfold lockExposureW
    rw [if_neg (not_le.mpr hpos), if_neg (by simp [hav]), if_neg (not_lt.mpr hEA)]
  have hsettle : settleExposureW
      { w with balance := fromInt (toInt w.balance - toInt e),
               lockedBalance := fromInt (toInt w.lockedBalance + toInt e) } e 0 = .ok w := by
    unfold settleExposureW
    simp only [toInt_fromInt, toInt_zero]
    rw [if_neg (by omega : ¬(toInt w.lockedBalance + toInt e < toInt e)), if_pos trivial]
    have e1 : toInt w.balance - toInt e + toInt e + 0 = toInt w.balance := by ring
    have e2 : toInt w.lockedBalance + toInt e - toInt e = toInt w.lockedBalance := by ring
    rw [e1, e2, hb, hl]
  have honce : roundTripOnce w e = .ok w := by
    unfold roundTripOnce
    rw [hlock]
    exact hsettle
  refine ⟨honce, fun n => ?_⟩
  induction n with
  | zero => rfl
  | succ k ih =>
    show roundTripN (k + 1) w e = .ok w
    unfold roundTripN
    rw [honce]
    exact ih

theorem lock_release_round_trip_w :
    (0 : ℚ) < 40 ∧
      roundTripOnce ⟨100, 0, "INR", true, false⟩ 40 = .ok ⟨100, 0, "INR", true, false⟩ := by
  refine ⟨by norm_num, ?_⟩
  exact (lock_release_round_trip ⟨100, 0, "INR", true, false⟩ 40 rfl (by norm_num)
    (by norm_num) (by norm_num) (by norm_num [toInt, fromInt])
    (by norm_num [toInt, fromInt])).1

/-- C5: a placement whose computed exposure exactly equals the available
balance of the wallet succeeds and leaves `available = 0`, while a placement
whose exposure exceeds the available balance by one paisa fails with the
insufficient-funds error: the transaction aborts, the wallet is unchanged
and no bet is persisted. -/
theorem placement_funds_boundary (w : Wallet) (e : ℚ)
    (hav : w.isAvailable = true) (hpos : 0 < e) :
    (toInt e = toInt w.balance →
       placeBetFunds w e =
         ({ w with balance := 0,
                   lockedBalance := fromInt (toInt w.lockedBalance + toInt e) }, true)) ∧
    (toInt e = toInt w.balance + 1 →
       lockExposureW w e = .error "Insufficient wallet balance to lock exposure" ∧
       placeBetFunds w e = (w, false)) := by
  constructor
  · intro heq
    have hlock : lockExposureW w e =
        .ok { w with balance := fromInt (toInt w.balance - toInt e),
                     lockedBalance := fromInt (toInt w.lockedBalance + toInt e) } := by
      unfold lockExposureW
      rw [if_neg (not_le.mpr hpos), if_neg (by simp [hav]), if_neg (by omega)]
    unfold placeBetFunds
    rw [hlock, heq]
    norm_num [fromInt]
  · intro heq
    have herr : lockExposureW w e = .error "Insufficient wallet balance to lock exposure" := by
      unfold lockExposureW
      rw [if_neg (not_le.mpr hpos), if_neg (by simp [hav]), if_pos (by omega)]
    refine ⟨herr, ?_⟩
    unfold placeBetFunds
    rw [herr]

theorem placement_funds_boundary_w :
    placeBetFunds ⟨1, 0, "INR", true, false⟩ 1 = (⟨0, 1, "INR", true, false⟩, true) ∧
    placeBetFunds ⟨1, 0, "INR", true, false⟩ (101 / 100) =
      (⟨1, 0, "INR", true, false⟩, false) := by
  constructor
  · have h := (placement_funds_boundary ⟨1, 0, "INR", true, false⟩ 1 rfl
      (by norm_num)).1 (by norm_num [toInt])
    rw [h]
    norm_num [toInt, fromInt]
  · exact ((placement_funds_boundary ⟨1, 0, "INR", true, false⟩ (101 / 100) rfl
      (by norm_num)).2 (by norm_num [toInt])).2

/-- C2: divergence witness.  For the winning back bet of `dbC2` (stake 100
at odds 4.70, exposure 100, available 0 / locked 100), the per-type table
says the wallet should end at `available + exposure + stake*(odds-1) = 470`;
`settleMarket` actually ends at 840 because `settleExposure` adds the net
win to the balance twice (first save already includes it, second save adds
it again).  The settlement result itself is correctly set to `won`. -/
theorem settleExposure_double_applies_net :
    settleMarketDB dbC2 pC2 = .ok dbC2After ∧
    walletFind dbC2After.wallets 7 = some ⟨840, 0, "INR", true, false⟩ ∧
    { betC2 with status := BetStatus.settled,
                 settlementResult := some BetResult.won } ∈ dbC2After.bets ∧
    wC2.balance + betC2.exposure + (betC2.odds.getD 0 - 1) * betC2.stake ≠ 840 := by
  refine ⟨?_, ?_, ?_, ?_⟩
  · norm_num [settleMarketDB, pC2, settleMatchOddsDB, openBetsFor, dbC2, betC2, wC2,
      betMatches, settleLoop, settleExposureDB, walletFind, settleExposureW, toInt,
      fromInt, walletUpdate, saveBet, applyOutcome, matchOddsOutcome, dbC2After]
  · norm_num [dbC2After, walletFind]
  · norm_num [dbC2After]
  · norm_num [wC2, betC2]

/-- C10: divergence witness.  Settling a losing bet (net result
`-exposure`) does not leave the available balance unchanged: starting from
available 500 / locked 100 with exposure 100, the code ends at available
400 (the loss is debited twice: once inside the unlock save and once in
the second save), while the exposure-unlock credit and loss debit were
supposed to cancel.  Only the `lockedBalance` drop by the exposure and the
untouched remaining fields match the claim. -/
theorem losing_settlement_changes_available :
    settleExposureW wC10 100 (-100) = .ok ⟨400, 0, "INR", true, false⟩ ∧
    (400 : ℚ) ≠ wC10.balance ∧
    (0 : ℚ) = wC10.lockedBalance - 100 := by
  refine ⟨?_, ?_, ?_⟩
  · norm_num [settleExposureW, toInt, fromInt, wC10]
  · norm_num [wC10]
  · norm_num [wC10]

/-- C7: when a session-market settlement succeeds, every open bet of that
market whose selection has no (truthy) entry in the result map ends up in
the result state as settled with `settlementResult = void` (exposure
released with zero net result), and no open bet of that market remains. -/
theorem fancy_void_on_missing_selection (db : DB) (mid eid : String)
    (rm : List (String × String)) (db' : DB)
    (h : settleBookmakersFancyDB db mid eid rm = .ok db')
    (hnd : (db.bets.map BetR.id).Nodup) :
    (∀ b ∈ db.bets, betMatches b mid eid .bookmakers_fancy = true →
       strTruthy (lookupStr rm b.selectionId) = false →
       { b with status := BetStatus.settled,
                settlementResult := some BetResult.void } ∈ db'.bets) ∧
    (∀ b ∈ db'.bets, betMatches b mid eid .bookmakers_fancy = false) := by
  unfold settleBookmakersFancyDB at h
  constructor
  · intro b hb hq hmiss
    have hfetched : b ∈ openBetsFor db mid eid .bookmakers_fancy :=
      List.mem_filter.mpr ⟨hb, hq⟩
    have hndf : ((openBetsFor db mid eid .bookmakers_fancy).map BetR.id).Nodup :=
      List.Nodup.sublist (List.Sublist.map _ (List.filter_sublist _)) hnd
    have hmem := settleLoop_processes _ _ _ _ h hndf b hfetched hb
    rw [fancyOutcome_void hmiss] at hmem
    exact hmem
  · intro b hb
    have hclear := settleLoop_clears (fancyOutcome rm) h
    unfold openBetsFor at hclear
    rw [List.filter_eq_nil_iff] at hclear
    exact Bool.not_eq_true _ ▸ hclear b hb

theorem fancy_void_on_missing_selection_w :
    { betC7 with status := BetStatus.settled,
                 settlementResult := some BetResult.void } ∈ dbC7After.bets := by
  have h : settleBookmakersFancyDB dbC7 "mkt2" "ev2" [] = .ok dbC7After := by
    norm_num [settleBookmakersFancyDB, openBetsFor, dbC7, betC7, betMatches, settleLoop,
      settleExposureDB, walletFind, settleExposureW, toInt, fromInt, walletUpdate,
      saveBet, applyOutcome, fancyOutcome, lookupStr, strTruthy, dbC7After]
  exact (fancy_void_on_missing_selection dbC7 "mkt2" "ev2" [] dbC7After h
      (by simp [dbC7, betC7])).1 betC7 (by simp [dbC7])
      (by simp [betMatches, betC7]) (by simp [lookupStr, strTruthy])

/-- C8: counterexample to the claim as stated.  In `dbC8` the user of the first bet
has no wallet — a per-bet settlement failure that is not a ledger
inconsistency — yet the whole market settlement halts ("Wallet not found")
and the second bet, which could have settled fine (the locked balance of
its user covers the exposure), is not settled: the transaction aborts and
the state is unchanged, so the remaining bet is still open. -/
theorem settlement_isolation_counterexample :
    settleMatchOddsDB dbC8 "mkt3" "ev3" "sA" = .error "Wallet not found" ∧
    settleMarketTx dbC8 pC8 = dbC8 ∧
    betC8b ∈ dbC8.bets ∧ betC8b.status = BetStatus.open_ ∧
    betMatches betC8b "mkt3" "ev3" .match_odds = true ∧
    walletFind dbC8.wallets betC8b.userId = some wC8 ∧
    ¬(toInt wC8.lockedBalance < toInt betC8b.exposure) := by
  refine ⟨?_, ?_, ?_, ?_, ?_, ?_, ?_⟩
  · norm_num [settleMatchOddsDB, openBetsFor, dbC8, betC8a, betC8b, betMatches,
      settleLoop, settleExposureDB, walletFind]
  · norm_num [settleMarketTx, settleMarketDB, pC8, settleMatchOddsDB, openBetsFor,
      dbC8, betC8a, betC8b, betMatches, settleLoop, settleExposureDB, walletFind]
  · norm_num [dbC8]
  · norm_num [betC8b]
  · norm_num [betMatches, betC8b]
  · norm_num [dbC8, walletFind, betC8b]
  · norm_num [toInt, wC8, betC8b]

/-- C8 (amended): there is no per-bet failure isolation: any settlement
failure for one bet of a market — a missing wallet just as much as a
ledger inconsistency — aborts the whole market settlement, and the
transaction rollback leaves every bet of the market unsettled. -/
theorem settlement_abort_on_bet_failure (db : DB) (mid eid wsel : String) :
    (∀ e, settleMatchOddsDB db mid eid wsel = .error e →
       settleMarketTx db ⟨.match_odds, mid, eid, wsel, [], false, 0⟩ = db) ∧
    ((∃ b ∈ openBetsFor db mid eid .match_odds, walletFind db.wallets b.userId = none) →
       ∃ e, settleMatchOddsDB db mid eid wsel = .error e ∧
         settleMarketTx db ⟨.match_odds, mid, eid, wsel, [], false, 0⟩ = db) := by
  constructor
  · intro e he
    simp [settleMarketTx, settleMarketDB, he]
  · intro hex
    obtain ⟨e, he⟩ := settleLoop_error_of_missing (matchOddsOutcome wsel) _ db hex
    have he' : settleMatchOddsDB db mid eid wsel = .error e := he
    exact ⟨e, he', by simp [settleMarketTx, settleMarketDB, he']⟩

theorem settlement_abort_on_bet_failure_w :
    settleMarketTx dbC8 pC8 = dbC8 := by
  obtain ⟨e, -, htx⟩ := (settlement_abort_on_bet_failure dbC8 "mkt3" "ev3" "sA").2
    ⟨betC8a, by norm_num [openBetsFor, dbC8, betMatches, betC8a, betC8b],
      by norm_num [dbC8, walletFind, betC8a]⟩
  exact htx

/-- C9: price integrity before funds move.  For a placement request with a
valid sport: if the referenced market is absent from the snapshot the
placement fails with the market-changed error; if the market is present
but its status is not OPEN it fails with the market-not-open error; and if
the submitted price for the requested side no longer matches the current
best quote of that side — back or lay odds on a fixed-odds market, yes
(back ladder) or no (lay ladder) rate on a session market — the placement
fails with the price-changed error.  In all cases the transaction aborts:
the wallet is unchanged and no bet is created. -/
theorem placement_price_integrity (snap : List MarketSnap) (uid : Nat) (w : Wallet)
    (p : PlacePayload)
    (hsport : p.sport = "cricket" ∨ p.sport = "soccer" ∨ p.sport = "tennis") :
    (snap.find? (fun m => m.mid = p.marketId) = none →
       placeBetV (some snap) uid w p = .error "value change try again" ∧
       placeBetTx (some snap) uid w p = (w, none)) ∧
    (∀ mm, snap.find? (fun m => m.mid = p.marketId) = some mm →
       upperStr mm.status ≠ "OPEN" →
       placeBetV (some snap) uid w p = .error "Market is not open" ∧
       placeBetTx (some snap) uid w p = (w, none)) ∧
    (∀ mm sec o t, p.marketType = .match_odds →
       ((p.betType = "back" ∧ t = "back") ∨ (p.betType = "lay" ∧ t = "lay")) →
       snap.find? (fun m => m.mid = p.marketId) = some mm →
       upperStr mm.status = "OPEN" → mm.mname ≠ "" →
       findSection mm.sections p.selectionId p.selectionName = some sec →
       upperStr sec.gstatus = "ACTIVE" →
       sectionPrices sec t ≠ [] →
       p.odds = some o →
       o ≠ (if t = "back" then listMaxD (sectionPrices sec t)
            else listMinD (sectionPrices sec t)) →
       placeBetV (some snap) uid w p = .error "value change try again" ∧
       placeBetTx (some snap) uid w p = (w, none)) ∧
    (∀ mm sec r t, p.marketType = .bookmakers_fancy →
       ((p.betType = "yes" ∧ t = "back") ∨ (p.betType = "no" ∧ t = "lay")) →
       snap.find? (fun m => m.mid = p.marketId) = some mm →
       upperStr mm.status = "OPEN" → mm.mname ≠ "" →
       findSection mm.sections p.selectionId p.selectionName = some sec →
       upperStr sec.gstatus ≠ "SUSPENDED" →
       sectionPrices sec t ≠ [] →
       p.rate = some r →
       r ≠ (if t = "back" then listMaxD (sectionPrices sec t)
            else listMinD (sectionPrices sec t)) →
       placeBetV (some snap) uid w p = .error "value change try again" ∧
       placeBetTx (some snap) uid w p = (w, none)) := by
  refine ⟨fun hfind => ?_, fun mm hfind hst => ?_,
    fun mm sec o t hmt hside hfind hop hnm hsec hact hne hodds hneq => ?_,
    fun mm sec r t hmt hside hfind hop hnm hsec hact hne hrate hneq => ?_⟩
  · have hV : placeBetV (some snap) uid w p = .error "value change try again" := by
      simp [placeBetV, hfind, hsport]
    exact ⟨hV, by unfold placeBetTx; rw [hV]⟩
  · have hmid : mm.mid = p.marketId := by
      have := List.find?_some hfind
      simpa using this
    have hV : placeBetV (some snap) uid w p = .error "Market is not open" := by
      simp [placeBetV, hfind, hsport, hmid, hst]
    exact ⟨hV, by unfold placeBetTx; rw [hV]⟩
  · have hmid : mm.mid = p.marketId := by
      have := List.find?_some hfind
      simpa using this
    rcases hside with ⟨hbt, rfl⟩ | ⟨hbt, rfl⟩
    · rw [if_pos rfl] at hneq
      have hV : placeBetV (some snap) uid w p = .error "value change try again" := by
        simp only [placeBetV, hfind, hsport, hmid, hop, hnm, hmt, hbt]
        simp [validateMatchOdds, hsec, hact, hbt, hne, hodds, hneq,
          List.isEmpty_iff]
      exact ⟨hV, by unfold placeBetTx; rw [hV]⟩
    · rw [if_neg (by decide : ¬("lay" = "back"))] at hneq
      have hV : placeBetV (some snap) uid w p = .error "value change try again" := by
        simp only [placeBetV, hfind, hsport, hmid, hop, hnm, hmt, hbt]
        simp [validateMatchOdds, hsec, hact, hbt, hne, hodds, hneq,
          List.isEmpty_iff]
      exact ⟨hV, by unfold placeBetTx; rw [hV]⟩
  · have hmid : mm.mid = p.marketId := by
      have := List.find?_some hfind
      simpa using this
    rcases hside with ⟨hbt, rfl⟩ | ⟨hbt, rfl⟩
    · rw [if_pos rfl] at hneq
      have hV : placeBetV (some snap) uid w p = .error "value change try again" := by
        simp only [placeBetV, hfind, hsport, hmid, hop, hnm, hmt, hbt]
        simp [validateFancy, hsec, hact, hbt, hne, hrate, hneq,
          List.isEmpty_iff]
      exact ⟨hV, by unfold placeBetTx; rw [hV]⟩
    · rw [if_neg (by decide : ¬("lay" = "back"))] at hneq
      have hV : placeBetV (some snap) uid w p = .error "value change try again" := by
        simp only [placeBetV, hfind, hsport, hmid, hop, hnm, hmt, hbt]
        simp [validateFancy, hsec, hact, hbt, hne, hrate, hneq,
          List.isEmpty_iff]
      exact ⟨hV, by unfold placeBetTx; rw [hV]⟩

theorem placement_price_integrity_w :
    placeBetTx (some snapC9) 1 wC9 pC9a = (wC9, none) ∧
    placeBetTx (some snapC9) 1 wC9 pC9b = (wC9, none) ∧
    placeBetTx (some snapC9) 1 wC9 pC9c = (wC9, none) ∧
    placeBetTx (some snapC9) 1 wC9 pC9d = (wC9, none) ∧
    placeBetTx (some snapC9) 1 wC9 pC9e = (wC9, none) := by
  refine ⟨?_, ?_, ?_, ?_, ?_⟩
  · exact ((placement_price_integrity snapC9 1 wC9 pC9a (Or.inl rfl)).1
      (by simp [snapC9, mmC9open, mmC9susp, pC9a])).2
  · exact ((placement_price_integrity snapC9 1 wC9 pC9b (Or.inl rfl)).2.1 mmC9susp
      (by simp [snapC9, mmC9open, mmC9susp, pC9b]) (by decide)).2
  · exact ((placement_price_integrity snapC9 1 wC9 pC9c (Or.inl rfl)).2.2.1 mmC9open secC9 3
      "back" rfl (Or.inl ⟨rfl, rfl⟩)
      (by simp [snapC9, mmC9open, mmC9susp, pC9c]) (by decide) (by decide)
      (by simp [findSection, mmC9open, secC9, pC9c]) (by decide)
      (by simp [sectionPrices, secC9]) rfl
      (by
        have hp : sectionPrices secC9 "back" = [2] := by
          simp [sectionPrices, secC9, List.filterMap_cons]
        rw [if_pos rfl, hp]
        norm_num [listMaxD])).2
  · exact ((placement_price_integrity snapC9 1 wC9 pC9d (Or.inl rfl)).2.2.1 mmC9open secC9 2
      "lay" rfl (Or.inr ⟨rfl, rfl⟩)
      (by simp [snapC9, mmC9open, mmC9susp, pC9d]) (by decide) (by decide)
      (by simp [findSection, mmC9open, secC9, pC9d]) (by decide)
      (by simp [sectionPrices, secC9]) rfl
      (by
        have hp : sectionPrices secC9 "lay" = [21 / 10] := by
          simp [sectionPrices, secC9, List.filterMap_cons]
        rw [if_neg (by decide : ¬("lay" = "back")), hp]
        norm_num [listMinD])).2
  · exact ((placement_price_integrity snapC9 1 wC9 pC9e (Or.inl rfl)).2.2.2 mmC9open secC9 2
      "lay" rfl (Or.inr ⟨rfl, rfl⟩)
      (by simp [snapC9, mmC9open, mmC9susp, pC9e]) (by decide) (by decide)
      (by simp [findSection, mmC9open, secC9, pC9e]) (by decide)
      (by simp [sectionPrices, secC9]) rfl
      (by
        have hp : sectionPrices secC9 "lay" = [21 / 10] := by
          simp [sectionPrices, secC9, List.filterMap_cons]
        rw [if_neg (by decide : ¬("lay" = "back")), hp]
        norm_num [listMinD])).2
